import Mathlib

/-!
Verification of the Netflix dashboard script in src/app.py.

The script loads a catalog CSV into a dataframe, derives two columns
(year_added and duration_num), filters rows by content type and year range,
and renders five tabs, each with a chart and a textual insight, plus an
optional GPT summary.  We embed the dataframe as a list of rows and each
relevant computation of the script as a Lean function on such lists.
-/

/-- One row of the loaded catalog dataframe.  String-valued CSV columns are
Option String (a missing cell is none); the derived columns year_added and
duration_num are optional numbers (pandas NaN is none). -/
structure Row where
  type : Option String
  rating : Option String
  country : Option String
  duration : Option String
  year_added : Option Int
  duration_num : Option Nat
deriving DecidableEq, Repr

/-- Scan of the regex (\d+) used on line 46 of app.py: return the first
maximal run of digit characters of the list, or none when no character is a
digit. -/
def firstDigitRun : List Char → Option (List Char)
  | [] => none
  | c :: cs => if c.isDigit then some (c :: cs.takeWhile (·.isDigit)) else firstDigitRun cs

/-- Decimal value of a run of digit characters, as pd.to_numeric reads it. -/
def natOfDigits (ds : List Char) : Nat :=
  ds.foldl (fun n c => 10 * n + (c.toNat - 48)) 0

/-- Line 46 of app.py: duration_num is pd.to_numeric applied to the first
regex match of (\d+) in the duration string, with coercion errors becoming
NaN.  A missing duration stays missing; otherwise the first maximal digit run
is parsed, and none is returned when the string has no digit. -/
def extractDurationNum (duration : Option String) : Option Nat :=
  duration.bind fun s => (firstDigitRun s.toList).map natOfDigits

/-- Lines 44 to 46 of app.py, per row: attach the derived duration_num column
computed from the duration column (year_added comes from the date parse,
which we keep abstract as the given optional year). -/
def deriveRow (type rating country duration : Option String)
    (year_added : Option Int) : Row :=
  ⟨type, rating, country, duration, year_added, extractDurationNum duration⟩

/-- Line 73 of app.py, the predicate on one row: the type cell is a member of
the selected types and the year_added cell lies between the two bounds,
inclusive.  A missing type is in no membership list and a missing year is in
no range, so either makes the row fail. -/
def keepRow (types : List String) (lo hi : Int) (r : Row) : Bool :=
  (match r.type with
   | some t => types.contains t
   | none => false) &&
  (match r.year_added with
   | some y => decide (lo ≤ y) && decide (y ≤ hi)
   | none => false)

/-- Line 73 of app.py: df_filtered keeps the rows of df satisfying both
predicates. -/
def filterRows (types : List String) (lo hi : Int) (df : List Row) : List Row :=
  df.filter (keepRow types lo hi)

theorem keepRow_iff (types : List String) (lo hi : Int) (r : Row) :
    keepRow types lo hi r = true ↔
      (∃ t, r.type = some t ∧ t ∈ types) ∧
        (∃ y, r.year_added = some y ∧ lo ≤ y ∧ y ≤ hi) := by
  cases ht : r.type <;> cases hy : r.year_added <;>
    simp [keepRow, ht, hy, and_assoc]

/-- C1: a row is in the filtered set iff it is in the loaded set, its type is
one of the selected types, and its year_added lies between the bounds, both
inclusive; consequently the filtered set is a subset of the loaded set, and a
row with a missing year_added is excluded for every year range. -/
theorem filtered_mem_iff (df : List Row) (types : List String) (lo hi : Int) (r : Row) :
    (r ∈ filterRows types lo hi df ↔
      r ∈ df ∧ (∃ t, r.type = some t ∧ t ∈ types) ∧
        (∃ y, r.year_added = some y ∧ lo ≤ y ∧ y ≤ hi)) ∧
    (∀ x ∈ filterRows types lo hi df, x ∈ df) ∧
    (r.year_added = none → r ∉ filterRows types lo hi df) := by
  have hmem : ∀ x : Row, x ∈ filterRows types lo hi df ↔
      x ∈ df ∧ keepRow types lo hi x = true := by
    intro x; simp [filterRows, List.mem_filter]
  refine ⟨?_, ?_, ?_⟩
  · rw [hmem, keepRow_iff]
  · intro x hx; exact ((hmem x).mp hx).1
  · intro hnone hr
    rcases ((hmem r).mp hr).2 with h
    rcases (keepRow_iff types lo hi r).mp h with ⟨_, ⟨y, hy, _⟩⟩
    rw [hnone] at hy; cases hy

/-- Sample row used by concrete witnesses. -/
def rowA : Row :=
  ⟨some "Movie", some "PG-13", some "United States", some "90 min", some 2017, some 90⟩

theorem filtered_mem_iff_witness :
    rowA ∈ filterRows ["Movie", "TV Show"] 2015 2020 [rowA] :=
  (filtered_mem_iff [rowA] ["Movie", "TV Show"] 2015 2020 rowA).1.mpr
    ⟨by decide, ⟨"Movie", by decide, by decide⟩, ⟨2017, by decide, by decide, by decide⟩⟩

theorem firstDigitRun_eq_none_iff (l : List Char) :
    firstDigitRun l = none ↔ ∀ c ∈ l, c.isDigit = false := by
  induction l with
  | nil => simp [firstDigitRun]
  | cons c cs ih =>
    by_cases h : c.isDigit = true
    · simp [firstDigitRun, h]
    · simp only [Bool.not_eq_true] at h
      simp [firstDigitRun, h, ih]

theorem head?_dropWhile_isDigit (l : List Char) :
    ∀ c, (l.dropWhile (·.isDigit)).head? = some c → c.isDigit = false := by
  induction l with
  | nil => intro c h; simp [List.dropWhile] at h
  | cons a as ih =>
    intro c h
    by_cases ha : a.isDigit = true
    · rw [List.dropWhile_cons, if_pos (by simpa using ha)] at h
      exact ih c h
    · rw [List.dropWhile_cons, if_neg (by simpa using ha)] at h
      simp only [List.head?_cons, Option.some.injEq] at h
      subst h
      simpa using ha

theorem firstDigitRun_some_spec (l run : List Char)
    (h : firstDigitRun l = some run) :
    ∃ pre post, l = pre ++ run ++ post ∧ (∀ c ∈ pre, c.isDigit = false) ∧
      run ≠ [] ∧ (∀ c ∈ run, c.isDigit = true) ∧
      ∀ c, post.head? = some c → c.isDigit = false := by
  induction l with
  | nil => simp [firstDigitRun] at h
  | cons c cs ih =>
    by_cases hc : c.isDigit = true
    · rw [firstDigitRun, if_pos (by simpa using hc)] at h
      obtain rfl := (Option.some.injEq _ _).mp h
      refine ⟨[], cs.dropWhile (·.isDigit), ?_, by simp, by simp, ?_, ?_⟩
      · simp [List.takeWhile_append_dropWhile]
      · intro d hd
        rcases List.mem_cons.mp hd with rfl | hd
        · exact hc
        · simpa using List.mem_takeWhile_imp hd
      · exact head?_dropWhile_isDigit cs
    · rw [firstDigitRun, if_neg (by simpa using hc)] at h
      obtain ⟨pre, post, hl, hpre, hne, hrun, hpost⟩ := ih h
      refine ⟨c :: pre, post, by simp [hl], ?_, hne, hrun, hpost⟩
      intro d hd
      rcases List.mem_cons.mp hd with rfl | hd
      · simpa using hc
      · exact hpre d hd

theorem natOfDigits_foldl (v : Char → Nat) (ds : List Char) (n : Nat) :
    ds.foldl (fun m c => 10 * m + v c) n =
      Nat.ofDigits 10 ((ds.map v).reverse) + n * 10 ^ ds.length := by
  induction ds generalizing n with
  | nil => simp [Nat.ofDigits]
  | cons c cs ih =>
    simp only [List.foldl_cons, List.map_cons, List.reverse_cons, List.length_cons]
    rw [ih, Nat.ofDigits_append, Nat.ofDigits_singleton]
    simp only [List.length_reverse, List.length_map]
    ring

theorem natOfDigits_eq_ofDigits (ds : List Char) :
    natOfDigits ds = Nat.ofDigits 10 ((ds.map fun c => c.toNat - 48).reverse) := by
  simpa using natOfDigits_foldl (fun c => c.toNat - 48) ds 0

/-- C3: the derived duration_num is none iff the duration string contains no
run of digit characters (a missing duration also yields none); when some
character is a digit, the string decomposes as a digit-free prefix, a first
maximal digit run, and a remainder not starting with a digit, and
duration_num is the base-ten value of that first run. -/
theorem durationNum_spec (type rating country duration : Option String)
    (year_added : Option Int) :
    ((deriveRow type rating country duration year_added).duration_num = none ↔
      ∀ s, duration = some s → ∀ c ∈ s.toList, c.isDigit = false) ∧
    (∀ s, duration = some s → (∃ c ∈ s.toList, c.isDigit = true) →
      ∃ pre run post, s.toList = pre ++ run ++ post ∧
        (∀ c ∈ pre, c.isDigit = false) ∧ run ≠ [] ∧
        (∀ c ∈ run, c.isDigit = true) ∧
        (∀ c, post.head? = some c → c.isDigit = false) ∧
        (deriveRow type rating country duration year_added).duration_num =
          some (Nat.ofDigits 10 ((run.map fun c => c.toNat - 48).reverse))) := by
  constructor
  · rcases duration with _ | s
    · simp [deriveRow, extractDurationNum]
    · simpa [deriveRow, extractDurationNum, Option.bind] using
        (firstDigitRun_eq_none_iff s.toList)
  · rintro s rfl ⟨c, hc, hdig⟩
    rcases hrun : firstDigitRun s.toList with _ | run
    · exact absurd ((firstDigitRun_eq_none_iff s.toList).mp hrun c hc)
        (by simp [hdig])
    · obtain ⟨pre, post, hl, hpre, hne, hall, hpost⟩ :=
        firstDigitRun_some_spec s.toList run hrun
      have hd : (deriveRow type rating country (some s) year_added).duration_num =
          some (natOfDigits run) := by
        show (firstDigitRun s.toList).map natOfDigits = some (natOfDigits run)
        rw [hrun]; rfl
      exact ⟨pre, run, post, hl, hpre, hne, hall, hpost, by
        rw [hd, natOfDigits_eq_ofDigits]⟩

theorem durationNum_spec_witness :
    (deriveRow none none none (some "Two Seasons") none).duration_num = none ∧
    (deriveRow none none none (some "90 min") none).duration_num = some 90 := by
  constructor
  · exact (durationNum_spec none none none (some "Two Seasons") none).1.mpr
      (by intro s hs; injection hs with hs; subst hs; decide)
  · decide

/-- C5: filtering an already-filtered set by the same selected types and year
range returns the same set of rows. -/
theorem filter_idempotent (df : List Row) (types : List String) (lo hi : Int) :
    filterRows types lo hi (filterRows types lo hi df) =
      filterRows types lo hi df := by
  simp [filterRows, List.filter_filter]

/-- Round a rational to the nearest integer with ties going to the even
integer, the rounding used by numpy and by the Python builtin round. -/
def roundHalfEven (q : ℚ) : ℤ :=
  if q - ⌊q⌋ < 1 / 2 then ⌊q⌋
  else if (1 : ℚ) / 2 < q - ⌊q⌋ then ⌊q⌋ + 1
  else if ⌊q⌋ % 2 = 0 then ⌊q⌋ else ⌊q⌋ + 1

theorem abs_roundHalfEven_sub (q : ℚ) : |(roundHalfEven q : ℚ) - q| ≤ 1 / 2 := by
  have hf : (⌊q⌋ : ℚ) ≤ q := Int.floor_le q
  have hc : q < ⌊q⌋ + 1 := Int.lt_floor_add_one q
  unfold roundHalfEven
  split_ifs with ha hb hd <;> rw [abs_le] <;> push_cast <;>
    constructor <;> linarith

/-- Non-null cells of the type column of a frame, the multiset that
value_counts tabulates (its default drops NaN). -/
def typeVals (df : List Row) : List String := df.filterMap (·.type)

/-- Line 125 of app.py for one type value v:
value_counts(normalize=True).round(2) brings the share of v among the
non-null type cells rounded to two decimal places, and the subsequent * 100
turns it into a percentage.  In exact arithmetic round(p, 2) * 100 equals the
integer nearest to 100 * p (ties to even). -/
def typePercent (vals : List String) (v : String) : ℤ :=
  roundHalfEven ((100 * vals.count v : ℚ) / vals.length)

/-- Sum of the displayed percentages over the distinct type values of a
frame, in first-occurrence order (the sum does not depend on the order). -/
def typePercentSum (df : List Row) : ℚ :=
  ((typeVals df).dedup.map fun v => (typePercent (typeVals df) v : ℚ)).sum

theorem abs_list_sum_sub_le {α : Type} (L : List α) (f g : α → ℚ) (c : ℚ)
    (h : ∀ a ∈ L, |f a - g a| ≤ c) :
    |(L.map f).sum - (L.map g).sum| ≤ L.length * c := by
  induction L with
  | nil => simp
  | cons a as ih =>
    simp only [List.map_cons, List.sum_cons, List.length_cons]
    have h1 := h a (List.mem_cons_self a as)
    have h2 := ih fun x hx => h x (List.mem_cons_of_mem a hx)
    have hsplit : f a + (as.map f).sum - (g a + (as.map g).sum)
        = (f a - g a) + ((as.map f).sum - (as.map g).sum) := by ring
    rw [hsplit]
    have habs := abs_add (f a - g a) ((as.map f).sum - (as.map g).sum)
    push_cast
    calc |(f a - g a) + ((as.map f).sum - (as.map g).sum)|
        ≤ |f a - g a| + |(as.map f).sum - (as.map g).sum| := habs
      _ ≤ c + as.length * c := add_le_add h1 h2
      _ = (as.length + 1) * c := by ring

theorem sum_exact_shares (l : List String) (hl : l ≠ []) :
    (l.dedup.map fun v => (100 * l.count v : ℚ) / l.length).sum = 100 := by
  have hn : (l.length : ℚ) ≠ 0 := by
    simpa using hl
  have hrw : (l.dedup.map fun v => (100 * l.count v : ℚ) / l.length)
      = l.dedup.map fun v => (l.count v : ℚ) * (100 / l.length) := by
    apply List.map_congr_left
    intro v _
    field_simp
    ring
  rw [hrw, List.sum_map_mul_right]
  have hcount : ((l.dedup.map fun v => (l.count v : ℚ))).sum = (l.length : ℚ) := by
    have hnat := List.sum_map_count_dedup_eq_length l
    have := congrArg (fun n : ℕ => (n : ℚ)) hnat
    simpa [Nat.cast_list_sum, Function.comp] using this
  rw [hcount]
  field_simp

theorem typeVals_filter_ne_nil (df : List Row) (types : List String) (lo hi : Int)
    (h : filterRows types lo hi df ≠ []) :
    typeVals (filterRows types lo hi df) ≠ [] := by
  obtain ⟨r, hr⟩ := List.exists_mem_of_ne_nil _ h
  obtain ⟨⟨t, ht, _⟩, _⟩ := (keepRow_iff types lo hi r).mp
    (List.of_mem_filter (by simpa [filterRows] using hr))
  have : t ∈ typeVals (filterRows types lo hi df) :=
    List.mem_filterMap.mpr ⟨r, hr, ht⟩
  exact fun hnil => by simp [hnil] at this

/-- C4: whenever the filtered set is non-empty, the per-type percentages of
the type-distribution insight (normalized value counts rounded to two decimal
places and multiplied by 100) sum to 100 up to the rounding error of the
per-type rounding: each distinct type value contributes at most half a
percentage point, so the sum lies within half the number of distinct type
values of 100. -/
theorem typePercentSum_near_100 (df : List Row) (types : List String) (lo hi : Int)
    (h : filterRows types lo hi df ≠ []) :
    |typePercentSum (filterRows types lo hi df) - 100| ≤
      ((typeVals (filterRows types lo hi df)).dedup.length : ℚ) * (1 / 2) := by
  have hlne := typeVals_filter_ne_nil df types lo hi h
  have hexact := sum_exact_shares (typeVals (filterRows types lo hi df)) hlne
  have hbound := abs_list_sum_sub_le (typeVals (filterRows types lo hi df)).dedup
    (fun v => (typePercent (typeVals (filterRows types lo hi df)) v : ℚ))
    (fun v => (100 * (typeVals (filterRows types lo hi df)).count v : ℚ) /
      (typeVals (filterRows types lo hi df)).length)
    (1 / 2)
    (fun v _ => abs_roundHalfEven_sub _)
  rw [typePercentSum, ← hexact]
  exact hbound

/-- Three further sample rows for concrete witnesses. -/
def rowB : Row :=
  ⟨some "Movie", some "R", some "Canada", some "100 min", some 2018, some 100⟩

def rowC : Row :=
  ⟨some "TV Show", some "TV-MA", some "Japan", some "2 Seasons", some 2019, some 2⟩

theorem typePercentSum_near_100_witness :
    filterRows ["Movie", "TV Show"] 2015 2020 [rowA, rowB, rowC] ≠ [] ∧
    |typePercentSum (filterRows ["Movie", "TV Show"] 2015 2020 [rowA, rowB, rowC]) - 100| ≤
      ((typeVals (filterRows ["Movie", "TV Show"] 2015 2020 [rowA, rowB, rowC])).dedup.length : ℚ)
        * (1 / 2) :=
  ⟨by decide, typePercentSum_near_100 [rowA, rowB, rowC] ["Movie", "TV Show"] 2015 2020
    (by decide)⟩

/-- Lines 85 to 96 of app.py: the prompt built by gpt_summary.  The function
receives the filtered dataframe as an argument, but the prompt interpolates
only the global year_range and types selections and then appends the canned
instruction chosen by the tab name (with a default for unknown tabs); the
dataframe argument is never consulted. -/
def gptPrompt (df : List Row) (yearRange : Int × Int) (types : List String)
    (tab : String) : String :=
  "Netflix data from " ++ toString yearRange.1 ++ " to " ++ toString yearRange.2 ++
    " for " ++ String.intercalate ", " types ++ ". " ++
  (if tab = "Overview" then "Summarize the content types."
   else if tab = "Ratings" then "Summarize the rating breakdown."
   else if tab = "Durations" then
     "Based on filtered Netflix data, summarize the average movie durations by country. " ++
     "Comment on which countries have the longest or shortest durations and any interesting trends."
   else if tab = "Trends" then "Summarize content trends over time."
   else if tab = "Titles Over Time" then "Summarize when titles were added."
   else "Give a general summary.")

/-- C10: the prompt depends only on the selected year range, the selected
types and the tab name; two runs with different filtered dataframes but the
same selections build the identical prompt. -/
theorem gptPrompt_noninterference (df1 df2 : List Row) (yearRange : Int × Int)
    (types : List String) (tab : String) :
    gptPrompt df1 yearRange types tab = gptPrompt df2 yearRange types tab := rfl

/-- Lines 97 to 101 of app.py: the try/except around the single
ChatCompletion call.  The argument first is the outcome of that one call
(ok with the response content, to be stripped, or error with the exception
text); rest lists the outcomes any further calls would have had, which the
code never makes. -/
def gptSummary (first : Except String String)
    (rest : List (Except String String)) : String :=
  match first with
  | Except.ok content => content.trim
  | Except.error e => "⚠️ GPT error: " ++ e

/-- C6: the GPT summary operation is a total function of the outcome of the
single API call, so no exception propagates to the caller; on any failure it
returns the placeholder string built from the exception text, and the
outcomes of any further calls are irrelevant because none is attempted. -/
theorem gptSummary_total (e : String) (first : Except String String)
    (rest rest1 rest2 : List (Except String String)) :
    gptSummary (Except.error e) rest = "⚠️ GPT error: " ++ e ∧
    gptSummary first rest1 = gptSummary first rest2 := ⟨rfl, rfl⟩

/-- First element of the list attaining the maximal score.  This models the
pandas idioms value_counts().idxmax() and sort_values(ascending=False)
followed by iloc[0], both of which return an index attaining the maximum. -/
def bestByScore {α β : Type} [LinearOrder β] (score : α → β) : List α → Option α
  | [] => none
  | v :: vs =>
    match bestByScore score vs with
    | none => some v
    | some w => if score v < score w then some w else some v

theorem bestByScore_ne_nil {α β : Type} [LinearOrder β] (score : α → β) :
    ∀ l : List α, l ≠ [] → ∃ m, bestByScore score l = some m
  | [], h => absurd rfl h
  | v :: vs, _ => by
    rcases hvs : bestByScore score vs with _ | w
    · exact ⟨v, by simp [bestByScore, hvs]⟩
    · by_cases hlt : score v < score w
      · exact ⟨w, by simp [bestByScore, hvs, hlt]⟩
      · exact ⟨v, by simp [bestByScore, hvs, hlt]⟩

theorem bestByScore_spec {α β : Type} [LinearOrder β] (score : α → β) :
    ∀ (l : List α) (m : α), bestByScore score l = some m →
      m ∈ l ∧ ∀ v ∈ l, score v ≤ score m := by
  intro l
  induction l with
  | nil => intro m h; simp [bestByScore] at h
  | cons v vs ih =>
    intro m h
    rcases hvs : bestByScore score vs with _ | w
    · rw [bestByScore, hvs] at h
      obtain rfl := (Option.some.injEq _ _).mp h
      have hemp : vs = [] := by
        by_contra hne
        obtain ⟨w, hw⟩ := bestByScore_ne_nil score vs hne
        rw [hw] at hvs; cases hvs
      subst hemp
      exact ⟨List.mem_singleton_self v, by intro x hx; rw [List.mem_singleton.mp hx]⟩
    · obtain ⟨hwmem, hwle⟩ := ih w hvs
      rw [bestByScore, hvs] at h
      have h2 : (if score v < score w then some w else some v) = some m := h
      by_cases hlt : score v < score w
      · rw [if_pos hlt] at h2
        obtain rfl := (Option.some.injEq _ _).mp h2
        refine ⟨List.mem_cons_of_mem v hwmem, ?_⟩
        intro x hx
        rcases List.mem_cons.mp hx with rfl | hx
        · exact le_of_lt hlt
        · exact hwle x hx
      · rw [if_neg hlt] at h2
        obtain rfl := (Option.some.injEq _ _).mp h2
        refine ⟨List.mem_cons_self _ _, ?_⟩
        intro x hx
        rcases List.mem_cons.mp hx with rfl | hx
        · exact le_rfl
        · exact le_trans (hwle x hx) (not_lt.mp hlt)

/-- value_counts().idxmax() on a list of non-null cells: a value with the
greatest multiplicity, taken first in first-occurrence order among ties. -/
def listMode {α : Type} [DecidableEq α] (l : List α) : Option α :=
  bestByScore (fun v => l.count v) l.dedup

theorem listMode_spec {α : Type} [DecidableEq α] (l : List α) (hl : l ≠ []) :
    ∃ m, listMode l = some m ∧ m ∈ l ∧ ∀ v ∈ l, l.count v ≤ l.count m := by
  have hd : l.dedup ≠ [] := fun h => hl ((List.dedup_eq_nil l).mp h)
  obtain ⟨m, hm⟩ := bestByScore_ne_nil (fun v => l.count v) l.dedup hd
  obtain ⟨hmem, hle⟩ := bestByScore_spec (fun v => l.count v) l.dedup m hm
  exact ⟨m, hm, List.mem_dedup.mp hmem,
    fun v hv => hle v (List.mem_dedup.mpr hv)⟩

/-- Outcome of one insight block of a tab: the guard skipped it, the
computation raised (pandas idxmax on an empty series), or a string was
rendered via st.success. -/
inductive RenderResult where
  | skipped
  | crash
  | rendered (s : String)
deriving DecidableEq, Repr

/-- Lines 137 to 143 of app.py (Titles Over Time): df_yr keeps the rows with
a non-null year_added, cast to int on a copy; when df_yr is non-empty the
peak year value_counts().idxmax() is rendered. -/
def tab2Insight (dff : List Row) : RenderResult :=
  let yrs := dff.filterMap (·.year_added)
  if yrs.isEmpty then RenderResult.skipped
  else
    match listMode yrs with
    | some p => RenderResult.rendered
        ("📌 Most titles were added in **" ++ toString p ++ "**.")
    | none => RenderResult.crash

/-- Lines 153 to 155 of app.py (Ratings): when df_filtered is non-empty, the
rating value_counts().idxmax() is rendered; value_counts drops missing
ratings, so when every rating of a non-empty filtered set is missing the
idxmax call raises on an empty series. -/
def tab3Insight (dff : List Row) : RenderResult :=
  if dff.isEmpty then RenderResult.skipped
  else
    match listMode (dff.filterMap (·.rating)) with
    | some m => RenderResult.rendered
        ("🏷️ The most frequent rating is **" ++ m ++ "**.")
    | none => RenderResult.crash

/-- Line 170 of app.py: main_country is the text before the first comma of
the country cell, with surrounding whitespace stripped. -/
def mainCountry (c : String) : String := ((c.splitOn ",").headD "").trim

/-- Lines 164 to 168 of app.py: the movie subset of the filtered frame, rows
of type Movie with a non-null duration_num and a non-null country. -/
def movieRows (dff : List Row) : List Row :=
  dff.filter fun r =>
    (r.type == some "Movie") && r.duration_num.isSome && r.country.isSome

/-- The two columns consumed by the groupby on lines 175 to 181: pairs of
main_country and duration_num over the movie subset. -/
def moviePairs (dff : List Row) : List (String × ℚ) :=
  (movieRows dff).filterMap fun r =>
    match r.country, r.duration_num with
    | some c, some d => some (mainCountry c, (d : ℚ))
    | _, _ => none

/-- Mean duration_num of one country group of the groupby. -/
def groupMean (pairs : List (String × ℚ)) (g : String) : ℚ :=
  let ds := (pairs.filter fun p => p.1 == g).map Prod.snd
  ds.sum / ds.length

/-- Distinct group keys of the groupby, in first-occurrence order. -/
def groupKeys (pairs : List (String × ℚ)) : List String :=
  (pairs.map Prod.fst).dedup

/-- Lines 172 to 186 of app.py (Durations): with an empty movie subset the
tab only warns; otherwise the per-country means are sorted in descending
order, the top ten are kept, and row zero, a country attaining the maximal
mean, is reported with the mean rounded to the nearest integer by the Python
builtin round (ties to even). -/
def tab4Insight (dff : List Row) : RenderResult :=
  let pairs := moviePairs dff
  match bestByScore (groupMean pairs) (groupKeys pairs) with
  | none => RenderResult.skipped
  | some g => RenderResult.rendered
      ("🏆 " ++ g ++ " has the longest average: " ++
        toString (roundHalfEven (groupMean pairs g)) ++ " minutes")

/-- One user-visible effect of a tab body, in program order. -/
inductive UIEvent where
  | chart (name : String)
  | warning (msg : String)
  | success (msg : String)
  | crash
deriving DecidableEq, Repr

/-- Classifier for warning events. -/
def isWarning : UIEvent → Bool
  | UIEvent.warning _ => true
  | _ => false

/-- Line 127 of app.py, one line of the distribution text: the percentage is
an integer in exact arithmetic, so the one-decimal format shows it with a
trailing .0. -/
def distLine (vals : List String) (v : String) : String :=
  "🔸 **" ++ v ++ "**: " ++ toString (typePercent vals v) ++ ".0%"

/-- Lines 120 to 128 of app.py (Overview): the histogram is drawn on the
filtered frame unconditionally; the distribution text follows only when the
type value_counts is non-empty.  The app lists the lines in descending count
order; we list them in first-occurrence order, which no claim depends on. -/
def tab1Trace (dff : List Row) : List UIEvent :=
  UIEvent.chart "type histogram" ::
    (if (typeVals dff).isEmpty then []
     else [UIEvent.success ("**Distribution of Selected Titles:**\n\n" ++
       String.intercalate "\n"
         ((typeVals dff).dedup.map (distLine (typeVals dff))))])

/-- Lines 135 to 143 of app.py: the year histogram is drawn on df_yr
unconditionally, then the peak-year text when df_yr is non-empty. -/
def tab2Trace (dff : List Row) : List UIEvent :=
  UIEvent.chart "year histogram" ::
    (match tab2Insight dff with
     | RenderResult.skipped => []
     | RenderResult.crash => [UIEvent.crash]
     | RenderResult.rendered s => [UIEvent.success s])

/-- Lines 149 to 155 of app.py: the ratings histogram is drawn on the
filtered frame unconditionally, then the top-rating text when it is
non-empty. -/
def tab3Trace (dff : List Row) : List UIEvent :=
  UIEvent.chart "ratings histogram" ::
    (match tab3Insight dff with
     | RenderResult.skipped => []
     | RenderResult.crash => [UIEvent.crash]
     | RenderResult.rendered s => [UIEvent.success s])

/-- Lines 172 to 186 of app.py: the Durations tab is the only guarded one:
an empty movie subset yields a warning and nothing else; otherwise the bar
chart is drawn and the longest-average text follows. -/
def tab4Trace (dff : List Row) : List UIEvent :=
  match tab4Insight dff with
  | RenderResult.skipped =>
      [UIEvent.warning "⚠️ No movie data available for current filters."]
  | RenderResult.crash => [UIEvent.crash]
  | RenderResult.rendered s =>
      [UIEvent.chart "duration by country bar", UIEvent.success s]

/-- Line 195 of app.py: the groupby keys of df_trend; groupby drops rows
whose year_added or type is missing. -/
def trendKeys (dff : List Row) : List (Int × String) :=
  (dff.filterMap fun r =>
    match r.year_added, r.type with
    | some y, some t => some (y, t)
    | _, _ => none).dedup

/-- Lines 199 to 202 of app.py: the growth message quotes the minimal and
maximal year keys of df_trend. -/
def trendMsg (ys : List Int) : String :=
  "📈 This chart shows Netflix" ++ String.singleton (Char.ofNat 39) ++
    "s content growth by type between **" ++ toString (ys.foldl min (ys.headD 0)) ++
    "** and **" ++ toString (ys.foldl max (ys.headD 0)) ++
    "**, highlighting how the platform evolved over time."

/-- Lines 193 to 202 of app.py (Trends): the line chart is drawn on df_trend
unconditionally, then the growth text when df_trend is non-empty. -/
def tab5Trace (dff : List Row) : List UIEvent :=
  UIEvent.chart "growth line" ::
    (if (trendKeys dff).isEmpty then []
     else [UIEvent.success (trendMsg ((trendKeys dff).map Prod.fst))])

/-- C2 counterexample: with an empty filtered result set the Overview tab
draws its histogram anyway; its trace is a single chart event and holds no
warning at all, so no user-facing warning precedes the chart call on the
empty set. -/
theorem overview_empty_chart_no_warning :
    tab1Trace [] = [UIEvent.chart "type histogram"] ∧
    (tab1Trace []).filter isWarning = [] := by
  constructor <;> rfl

/-- C2 amended: only the Durations tab guards the empty case, rendering a
user-facing warning and no chart when its movie subset is empty; the
Overview, Titles Over Time, Ratings and Trends tabs draw their charts first,
even on an empty filtered set, and never render a warning. -/
theorem empty_guard_only_durations (dff : List Row) :
    (tab1Trace dff).head? = some (UIEvent.chart "type histogram") ∧
    (tab1Trace dff).filter isWarning = [] ∧
    (tab2Trace dff).head? = some (UIEvent.chart "year histogram") ∧
    (tab2Trace dff).filter isWarning = [] ∧
    (tab3Trace dff).head? = some (UIEvent.chart "ratings histogram") ∧
    (tab3Trace dff).filter isWarning = [] ∧
    (tab5Trace dff).head? = some (UIEvent.chart "growth line") ∧
    (tab5Trace dff).filter isWarning = [] ∧
    (movieRows dff = [] →
      tab4Trace dff =
        [UIEvent.warning "⚠️ No movie data available for current filters."]) := by
  refine ⟨rfl, ?_, rfl, ?_, rfl, ?_, rfl, ?_, ?_⟩
  · by_cases h : (typeVals dff).isEmpty <;> simp [tab1Trace, h, isWarning]
  · cases h : tab2Insight dff <;> simp [tab2Trace, h, isWarning]
  · cases h : tab3Insight dff <;> simp [tab3Trace, h, isWarning]
  · by_cases h : (trendKeys dff).isEmpty <;> simp [tab5Trace, h, isWarning]
  · intro h
    have hp : moviePairs dff = [] := by simp [moviePairs, h]
    simp [tab4Trace, tab4Insight, hp, groupKeys, bestByScore]

theorem empty_guard_only_durations_witness :
    tab4Trace [] =
      [UIEvent.warning "⚠️ No movie data available for current filters."] :=
  (empty_guard_only_durations []).2.2.2.2.2.2.2.2 rfl

/-- Fixed synthetic ten-row dataset: types, ratings and years chosen so the
rating mode (TV-MA, four of ten) and the peak year (2019, four of ten) are
unique; all ten rows pass the fixed filter of both content types over the
years 2015 to 2020. -/
def tenRows : List Row :=
  [⟨some "Movie", some "TV-MA", some "United States", some "90 min", some 2019, some 90⟩,
   ⟨some "TV Show", some "TV-MA", some "Japan", some "2 Seasons", some 2019, some 2⟩,
   ⟨some "Movie", some "TV-14", some "India", some "120 min", some 2019, some 120⟩,
   ⟨some "Movie", some "TV-MA", some "France", some "95 min", some 2019, some 95⟩,
   ⟨some "TV Show", some "PG", some "Canada", some "1 Season", some 2016, some 1⟩,
   ⟨some "Movie", some "TV-MA", some "Mexico", some "80 min", some 2016, some 80⟩,
   ⟨some "TV Show", some "TV-14", some "Spain", some "3 Seasons", some 2016, some 3⟩,
   ⟨some "Movie", some "PG", some "United States", some "100 min", some 2018, some 100⟩,
   ⟨some "TV Show", some "TV-14", some "South Korea", some "2 Seasons", some 2018, some 2⟩,
   ⟨some "Movie", some "R", some "Italy", some "110 min", some 2018, some 110⟩]

/-- C7 amended: for every non-empty filtered set with at least one non-null
rating, the most-common-rating insight renders a mode of the non-null
ratings (a value whose multiplicity no rating exceeds); for every filtered
set with at least one non-null year_added, the peak-year insight renders a
most frequent non-null year; and on the fixed synthetic ten-row dataset with
the fixed filter both rendered strings equal the hand-computed expectation. -/
theorem insight_mode_peak (dff : List Row) :
    (dff.filterMap (·.rating) ≠ [] →
      ∃ m, m ∈ dff.filterMap (·.rating) ∧
        (∀ v ∈ dff.filterMap (·.rating),
          (dff.filterMap (·.rating)).count v ≤ (dff.filterMap (·.rating)).count m) ∧
        tab3Insight dff = RenderResult.rendered
          ("🏷️ The most frequent rating is **" ++ m ++ "**.")) ∧
    (dff.filterMap (·.year_added) ≠ [] →
      ∃ p, p ∈ dff.filterMap (·.year_added) ∧
        (∀ y ∈ dff.filterMap (·.year_added),
          (dff.filterMap (·.year_added)).count y ≤
            (dff.filterMap (·.year_added)).count p) ∧
        tab2Insight dff = RenderResult.rendered
          ("📌 Most titles were added in **" ++ toString p ++ "**.")) ∧
    tab3Insight (filterRows ["Movie", "TV Show"] 2015 2020 tenRows) =
      RenderResult.rendered "🏷️ The most frequent rating is **TV-MA**." ∧
    tab2Insight (filterRows ["Movie", "TV Show"] 2015 2020 tenRows) =
      RenderResult.rendered "📌 Most titles were added in **2019**." := by
  refine ⟨?_, ?_, by decide, by decide⟩
  · intro h
    obtain ⟨m, hmode, hmem, hle⟩ := listMode_spec (dff.filterMap (·.rating)) h
    have hdne : dff ≠ [] := fun hd => h (by simp [hd])
    have hde : dff.isEmpty = false := by
      rcases dff with _ | ⟨a, as⟩
      · exact absurd rfl hdne
      · rfl
    exact ⟨m, hmem, hle, by simp [tab3Insight, hde, hmode]⟩
  · intro h
    obtain ⟨p, hmode, hmem, hle⟩ := listMode_spec (dff.filterMap (·.year_added)) h
    have hye : (dff.filterMap (·.year_added)).isEmpty = false := by
      cases hq : dff.filterMap (·.year_added) with
      | nil => exact absurd hq h
      | cons a as => rfl
    exact ⟨p, hmem, hle, by simp [tab2Insight, hye, hmode]⟩

theorem insight_mode_peak_witness :
    tab2Insight [rowA] = RenderResult.rendered
      ("📌 Most titles were added in **" ++ toString (2017 : Int) ++ "**.") := by
  obtain ⟨p, hpmem, _, hrend⟩ := (insight_mode_peak [rowA]).2.1 (by decide)
  have hfm : [rowA].filterMap (·.year_added) = [2017] := rfl
  rw [hfm] at hpmem
  rw [List.mem_singleton.mp hpmem] at hrend
  exact hrend

/-- Row whose rating cell is missing but which passes the fixed filter. -/
def rowNoRating : Row :=
  ⟨some "Movie", none, some "France", some "80 min", some 2018, some 80⟩

/-- C7 counterexample: a non-empty filtered set all of whose ratings are
missing: value_counts of the rating column is empty, idxmax raises, and no
most-common-rating string is rendered for this non-empty filtered set. -/
theorem tab3_crash_all_null_ratings :
    filterRows ["Movie"] 2015 2020 [rowNoRating] = [rowNoRating] ∧
    tab3Insight [rowNoRating] = RenderResult.crash := ⟨rfl, rfl⟩

theorem movieRows_fields (dff : List Row) (r : Row) (hr : r ∈ movieRows dff) :
    ∃ c d, r.country = some c ∧ r.duration_num = some d := by
  have hb := List.of_mem_filter hr
  simp only [Bool.and_eq_true, Option.isSome_iff_exists] at hb
  obtain ⟨⟨_, d, hd⟩, c, hc⟩ := hb
  exact ⟨c, d, hc, hd⟩

/-- C8: whenever the movie subset of the filtered set is non-empty, the
Durations insight renders, for a country attaining the maximal per-country
mean of duration_num, the fixed template with that mean rounded to the
nearest integer (ties to even, the rounding of the Python builtin round). -/
theorem tab4Insight_spec (dff : List Row) (h : movieRows dff ≠ []) :
    ∃ g, g ∈ groupKeys (moviePairs dff) ∧
      (∀ gg ∈ groupKeys (moviePairs dff),
        groupMean (moviePairs dff) gg ≤ groupMean (moviePairs dff) g) ∧
      tab4Insight dff = RenderResult.rendered
        ("🏆 " ++ g ++ " has the longest average: " ++
          toString (roundHalfEven (groupMean (moviePairs dff) g)) ++ " minutes") := by
  have hkeys : groupKeys (moviePairs dff) ≠ [] := by
    obtain ⟨r, hr⟩ := List.exists_mem_of_ne_nil _ h
    obtain ⟨c, d, hc, hd⟩ := movieRows_fields dff r hr
    have hpair : (mainCountry c, (d : ℚ)) ∈ moviePairs dff :=
      List.mem_filterMap.mpr ⟨r, hr, by rw [hc, hd]⟩
    have hmapmem : mainCountry c ∈ (moviePairs dff).map Prod.fst :=
      List.mem_map.mpr ⟨_, hpair, rfl⟩
    intro hnil
    have hd2 : mainCountry c ∈ groupKeys (moviePairs dff) :=
      List.mem_dedup.mpr hmapmem
    rw [hnil] at hd2
    cases hd2
  obtain ⟨g, hg⟩ := bestByScore_ne_nil (groupMean (moviePairs dff)) _ hkeys
  obtain ⟨hmem, hle⟩ := bestByScore_spec _ _ g hg
  exact ⟨g, hmem, hle, by simp [tab4Insight, hg]⟩

theorem tab4Insight_spec_witness :
    ∃ g, g ∈ groupKeys (moviePairs [rowA, rowB]) ∧
      (∀ gg ∈ groupKeys (moviePairs [rowA, rowB]),
        groupMean (moviePairs [rowA, rowB]) gg ≤ groupMean (moviePairs [rowA, rowB]) g) ∧
      tab4Insight [rowA, rowB] = RenderResult.rendered
        ("🏆 " ++ g ++ " has the longest average: " ++
          toString (roundHalfEven (groupMean (moviePairs [rowA, rowB]) g)) ++ " minutes") :=
  tab4Insight_spec [rowA, rowB] (by decide)

/-- One full interaction of app.py as explicit state passing: from the loaded
frame df the script derives the filtered frame and each per-tab frame.  The
only column writes of the script (line 138, the int cast of year_added, and
line 170, main_country) are performed on frames obtained with .copy(), which
the embedding renders by building new local lists, and the loaded frame is
threaded through to the end of the run. -/
def runApp (df : List Row) (types : List String) (lo hi : Int) :
    List UIEvent × List Row :=
  let dff := filterRows types lo hi df
  (tab1Trace dff ++ tab2Trace dff ++ tab3Trace dff ++ tab4Trace dff ++ tab5Trace dff,
   df)

/-- C9: the loaded dataset is never mutated: after a full run over the five
tabs the loaded frame, with every row and every column, comes back
unchanged; the filter and the per-tab aggregations only produced new
values. -/
theorem loaded_frame_unchanged (df : List Row) (types : List String) (lo hi : Int) :
    (runApp df types lo hi).2 = df := rfl
